import Mathlib

/-!
Shallow embedding of the SSO-with-redirect-URL screen of the mobile client
(`src/app/screens/sso/sso_with_redirect_url.tsx`) and proofs about it.

The embedding models:
  * JavaScript string/option truthiness as used by the component;
  * the query-object manipulation of `init` (lines 83-95): object spread with
    `redirect_to` and `code_challenge` assignments;
  * the query-string parsing performed by `url-parse`/`querystringify`
    (first occurrence of a key wins, value is everything after the first `=`);
  * the browser-launch error classifier `onError` (lines 97-113);
  * the URL-event handler `onURLChange` (lines 119-143) with the remote
    exchange collaborator `fetchSessionTokenFromCodeChallenge` abstracted as a
    function parameter;
  * the component lifecycle (mount, `setCodeVerifier` with the re-run of the
    `[codeVerifier]` effect, URL events, the mount timer, unmount) as a step
    relation over an explicit component state, with the calls to `doSSOLogin`,
    the exchange collaborator and the deferred `init(false)` as observations.
-/

set_option linter.unusedVariables false

namespace SsoRedirect

/-- JavaScript truthiness of a string: truthy iff not the empty string. -/
def strTruthy (s : String) : Bool := s != ""

/-- JavaScript truthiness of a `string | undefined` value. -/
def optTruthy : Option String → Bool
  | none => false
  | some s => strTruthy s

/-- Split a character list at every occurrence of `sep` (the separators are
dropped; `n` separators produce `n+1` pieces, possibly empty). -/
def splitList (sep : Char) : List Char → List (List Char)
  | [] => [[]]
  | c :: cs =>
    let r := splitList sep cs
    if c == sep then [] :: r
    else
      match r with
      | [] => [[c]]
      | h :: t => (c :: h) :: t

/-- `String.prototype.startsWith`, executed on the underlying character lists. -/
def strStartsWith (s p : String) : Bool := p.data.isPrefixOf s.data

/-- Whether `needle` occurs as a contiguous sublist of the second argument. -/
def charsInfixOf (needle : List Char) : List Char → Bool
  | [] => needle.isEmpty
  | c :: t => needle.isPrefixOf (c :: t) || charsInfixOf needle t

/-- A parsed query, as the insertion-ordered string-keyed object produced by
`url-parse` with query parsing enabled. -/
abbrev Query := List (String × String)

/-- Read a property of the query object (`parsedUrl.query?.KEY`). -/
def qlookup : Query → String → Option String
  | [], _ => none
  | (k', v') :: q, k => if k' == k then some v' else qlookup q k

/-- JS object property assignment `q[k] = v`: overwrite in place when the key
exists, append otherwise. The object-literal spread of `init` (lines 89-93)
is two such assignments on a copy of the parsed query. -/
def objSet : Query → String → String → Query
  | [], k, v => [(k, v)]
  | (k', v') :: q, k, v =>
    if k' == k then (k, v) :: q else (k', v') :: objSet q k v

/-- The keys of a query object, in property order. -/
def keys : Query → List String
  | [] => []
  | p :: q => p.1 :: keys q

/-- One `key=value` segment of a query string, as parsed by `querystringify`:
the key is the part before the first `=` (must be nonempty), the value is
everything after it (empty when there is no `=`). -/
def parsePair (part : List Char) : Option (String × String) :=
  match splitList '=' part with
  | [] => none
  | k :: rest =>
    if k.isEmpty then none
    else some (String.mk k, String.mk (List.intercalate ['='] rest))

/-- Accumulate one parsed pair, first occurrence of a key winning, as
`querystringify.parse` does. -/
def addFirstWins (q : Query) (kv : String × String) : Query :=
  if q.any (fun p => p.1 == kv.1) then q else q ++ [kv]

/-- Parse the text after the `?` of a URL into a query object. -/
def parseQueryChars (cs : List Char) : Query :=
  (splitList '&' cs).foldl
    (fun q part =>
      match parsePair part with
      | some kv => addFirstWins q kv
      | none => q)
    []

/-- The query text of a URL: everything after the first `?`, with any
`#`-fragment removed first, as `url-parse` extracts it. -/
def queryText (url : String) : List Char :=
  match splitList '?' ((splitList '#' url.data).headD []) with
  | [] => []
  | [_] => []
  | _ :: rest => List.intercalate ['?'] rest

/-- `urlParse(url, true).query`: the parsed query object of `url`. -/
def parseUrlQuery (url : String) : Query := parseQueryChars (queryText url)

/-- Error message id `mobile.oauth.failed_to_login` (lines 135-140). -/
def loginFailedMsg : String := "Your login attempt failed. Please try again."

/-- Error message id `mobile.oauth.failed_to_open_link_no_browser` (lines 100-103). -/
def noBrowserMsg : String :=
  "The link failed to open. Please verify that a browser is installed on the device."

/-- Error message id `mobile.oauth.failed_to_open_link` (lines 105-108). -/
def linkFailedMsg : String := "The link failed to open. Please try again."

/-- Line 76: `const redirectUrl = customUrlScheme + 'callback'`. -/
def redirectUrlOf (customUrlScheme : String) : String := customUrlScheme ++ "callback"

/-- The external collaborators used by `init`, abstracted as functions:
the secure random source (byte length to generated verifier string), the
SHA-256 hash, and the URL-safe base64 encoder. -/
structure InitEnv where
  generateSecureRandom : Nat → String
  sha256 : String → String
  urlSafeBase64Encode : String → String

/-- What `init` produces from the flow-relevant part of its body
(lines 83-95): the verifier stored via `setCodeVerifier`, and the query
object of the URL handed to `tryOpenURL`. -/
structure InitResult where
  storedVerifier : String
  urlQuery : Query
deriving DecidableEq

/-- Lines 83-95 of `init`: generate a 100-byte verifier, store it, derive the
challenge as `urlSafeBase64Encode(sha256(verifier))`, and build the query of
the login URL by spreading the parsed query of `loginUrl` and assigning
`redirect_to` and `code_challenge`. -/
def init (env : InitEnv) (loginQuery : Query) (redirectUrl : String) : InitResult :=
  let verifier := env.generateSecureRandom 100
  let hash := env.sha256 verifier
  let codeChallenge := env.urlSafeBase64Encode hash
  let q1 := objSet loginQuery "redirect_to" redirectUrl
  let q2 := objSet q1 "code_challenge" codeChallenge
  { storedVerifier := verifier, urlQuery := q2 }

/-- `Platform.OS` of the running app. -/
inductive PlatformOS where
  | android
  | ios
deriving DecidableEq

/-- The `unknown` error delivered to `onError`: falsy, truthy without a
string `message` property, or an error object with a message. -/
inductive LaunchFailure where
  | nullish
  | noMessage
  | withMessage (m : String)
deriving DecidableEq

/-- The test `/no activity found to handle intent/i` on an error message:
case-insensitive occurrence of the phrase. -/
def matchesNoActivity (m : String) : Bool :=
  charsInfixOf "no activity found to handle intent".data (m.data.map Char.toLower)

/-- `onError` (lines 97-113): the message placed into the error state.
The distinct no-browser message requires a truthy error, Android, a string
message, and the no-activity pattern; every other failure gets the generic
message. The classifier is total: no exception escapes it. -/
def onErrorMessage (os : PlatformOS) (e : LaunchFailure) : String :=
  match e, os with
  | .withMessage m, .android =>
    if matchesNoActivity m then noBrowserMsg else linkFailedMsg
  | _, _ => linkFailedMsg

/-- Result of `fetchSessionTokenFromCodeChallenge`: either a response with a
`token` property (carrying `token` and `csrf`), or an error result without
one (`'token' in response` is false). -/
inductive ExchangeResponse where
  | success (token csrf : String)
  | error
deriving DecidableEq

/-- What one run of `onURLChange` does at its exit: nothing (prefix mismatch),
a `doSSOLogin(bearer, csrf)` call, or a `setError(msg)` call. -/
inductive HandlerAction where
  | noop
  | login (bearer csrf : String)
  | setError (msg : String)
deriving DecidableEq

/-- One run of `onURLChange`: the call made to the exchange collaborator, if
any, as `(serverUrl, challengeToken, verifier)`, and the exit action. -/
structure HandlerResult where
  exchangeCall : Option (String × String × String)
  action : HandlerAction
deriving DecidableEq

/-- `onURLChange` (lines 119-143). `exchange` abstracts
`fetchSessionTokenFromCodeChallenge`; `codeVerifier` is the state value the
handler closed over. -/
def onURLChange (exchange : String → String → String → ExchangeResponse)
    (serverUrl redirectUrl : String) (codeVerifier : Option String)
    (url : String) : HandlerResult :=
  if strTruthy url && strStartsWith url redirectUrl then
    let q := parseUrlQuery url
    let bearerToken := qlookup q "MMAUTHTOKEN"
    let csrfToken := qlookup q "MMCSRF"
    let codeChallengeToken := qlookup q "MMCHALLENGETOKEN"
    if optTruthy codeChallengeToken && optTruthy codeVerifier then
      let ct := codeChallengeToken.getD ""
      let v := codeVerifier.getD ""
      let response := exchange serverUrl ct v
      let bearer2 := match response with | .success t _ => some t | .error => bearerToken
      let csrf2 := match response with | .success _ c => some c | .error => csrfToken
      { exchangeCall := some (serverUrl, ct, v)
        action :=
          if optTruthy bearer2 && optTruthy csrf2 then
            .login (bearer2.getD "") (csrf2.getD "")
          else
            .setError loginFailedMsg }
    else
      { exchangeCall := none
        action :=
          if optTruthy bearerToken && optTruthy csrfToken then
            .login (bearerToken.getD "") (csrfToken.getD "")
          else
            .setError loginFailedMsg }
  else
    { exchangeCall := none, action := .noop }

/-- The component state relevant to the flow: the `codeVerifier` React state,
the currently registered `Linking` URL listener together with the verifier
value its `onURLChange` closure captured (`none` when no listener is
registered), the internal `error` state, whether the mount timer is still
pending, and whether the component is mounted. -/
structure CompState where
  codeVerifier : Option String
  listenerVerifier : Option (Option String)
  error : String
  timerPending : Bool
  mounted : Bool
deriving DecidableEq

/-- Externally visible events driving the component:
`setVerifier v` is `setCodeVerifier(v)` committing, upon which React re-runs
the `[codeVerifier]` effect (old listener removed, new one registered over
the new value); `urlOpen` is a `Linking` URL event; `timerFire` is the mount
timer elapsing; `unmount` tears the component down (both effect cleanups
run: `listener.remove()` and `clearTimeout`). -/
inductive SysEvent where
  | setVerifier (v : String)
  | urlOpen (url : String)
  | timerFire
  | unmount
deriving DecidableEq

/-- Observable calls a step makes: a `doSSOLogin(bearer, csrf)` call, a call
to the exchange collaborator with challenge token and verifier, or the
deferred `init(false)` of the mount timer running. -/
inductive Obs where
  | login (bearer csrf : String)
  | exchanged (challengeToken verifier : String)
  | initRun
deriving DecidableEq

/-- The state right after mount: `codeVerifier` is undefined, the
`[codeVerifier]` effect has registered a listener closing over that undefined
value, and the timer effect (lines 152-159) has scheduled the deferred
`init(false)` — unconditionally: the effect body never reads the `loginError`
prop, so `timerPending` is `true` whatever `loginError` is. -/
def mountState (loginError : String) : CompState :=
  { codeVerifier := none
    listenerVerifier := some none
    error := ""
    timerPending := true
    mounted := true }

/-- The delay, in milliseconds, of the mount timer (line 155). -/
def mountTimerDelayMs : Nat := 1000

/-- One lifecycle step. After unmount every event is inert: the listener and
the timer were removed by the effect cleanups, and React performs no state
update or effect run on an unmounted component. -/
def step (exchange : String → String → String → ExchangeResponse)
    (serverUrl redirectUrl : String) (s : CompState) (e : SysEvent) :
    CompState × List Obs :=
  if s.mounted then
    match e with
    | .setVerifier v =>
      ({ s with codeVerifier := some v, listenerVerifier := some (some v) }, [])
    | .urlOpen url =>
      match s.listenerVerifier with
      | none => (s, [])
      | some cv =>
        let r := onURLChange exchange serverUrl redirectUrl cv url
        let exObs : List Obs :=
          match r.exchangeCall with
          | some (_, ct, v) => [Obs.exchanged ct v]
          | none => []
        match r.action with
        | .noop => (s, exObs)
        | .login b c => (s, exObs ++ [Obs.login b c])
        | .setError m => ({ s with error := m }, exObs)
    | .timerFire =>
      if s.timerPending then ({ s with timerPending := false }, [Obs.initRun])
      else (s, [])
    | .unmount =>
      ({ s with listenerVerifier := none, timerPending := false, mounted := false }, [])
  else (s, [])

/-- Run a sequence of lifecycle events, collecting the observations. -/
def runTrace (exchange : String → String → String → ExchangeResponse)
    (serverUrl redirectUrl : String) :
    CompState → List SysEvent → CompState × List Obs
  | s, [] => (s, [])
  | s, e :: evs =>
    let p := step exchange serverUrl redirectUrl s e
    let q := runTrace exchange serverUrl redirectUrl p.1 evs
    (q.1, p.2 ++ q.2)

/-- States the component can be in: reached from some mount by some event
sequence. -/
def ReachableFrom (exchange : String → String → String → ExchangeResponse)
    (serverUrl redirectUrl : String) (s : CompState) : Prop :=
  ∃ loginError evs,
    (runTrace exchange serverUrl redirectUrl (mountState loginError) evs).1 = s

/-- Concrete collaborator set used to instantiate universally quantified
theorems on closed inputs. -/
def sampleEnv : InitEnv :=
  { generateSecureRandom := fun n => String.mk (List.replicate n 'r')
    sha256 := fun s => "sha256(" ++ s ++ ")"
    urlSafeBase64Encode := fun s => "b64(" ++ s ++ ")" }

/-- An exchange collaborator that always succeeds with a fixed pair. -/
def exchOk : String → String → String → ExchangeResponse :=
  fun _ _ _ => .success "tok2" "csrf2"

/-- An exchange collaborator that always returns the error result. -/
def exchErr : String → String → String → ExchangeResponse :=
  fun _ _ _ => .error

/-- A callback URL delivering bearer and CSRF tokens directly. -/
def callbackUrlDirect : String := "mmauth://callback?MMAUTHTOKEN=tok1&MMCSRF=csrf1"

/-- A callback URL delivering only a challenge token. -/
def callbackUrlChallenge : String := "mmauth://callback?MMCHALLENGETOKEN=chal1"

/-- A callback URL delivering direct tokens and a challenge token together. -/
def callbackUrlAll : String :=
  "mmauth://callback?MMAUTHTOKEN=tok1&MMCSRF=csrf1&MMCHALLENGETOKEN=chal1"

/-! Helper lemmas about the query-object operations. -/

theorem qlookup_objSet_self (q : Query) (k v : String) :
    qlookup (objSet q k v) k = some v := by
  induction q with
  | nil => simp [objSet, qlookup]
  | cons p q ih =>
    obtain ⟨k', v'⟩ := p
    by_cases h : k' = k
    · subst h
      simp [objSet, qlookup]
    · simp [objSet, qlookup, h, ih]

theorem qlookup_objSet_ne (q : Query) (k v k0 : String) (h : k0 ≠ k) :
    qlookup (objSet q k v) k0 = qlookup q k0 := by
  have hk : k ≠ k0 := fun h' => h h'.symm
  induction q with
  | nil => simp [objSet, qlookup, hk]
  | cons p q ih =>
    obtain ⟨k', v'⟩ := p
    by_cases h' : k' = k
    · subst h'
      simp [objSet, qlookup, hk]
    · simp [objSet, qlookup, h', ih]

theorem mem_objSet_of_ne (q : Query) (k v k0 v0 : String)
    (hm : (k0, v0) ∈ q) (h : k0 ≠ k) : (k0, v0) ∈ objSet q k v := by
  induction q with
  | nil => simp at hm
  | cons p q ih =>
    obtain ⟨k', v'⟩ := p
    by_cases h' : k' = k
    · rw [show objSet ((k', v') :: q) k v = (k, v) :: q by
        simp [objSet, h']]
      rcases List.mem_cons.mp hm with h1 | h1
      · have hk0 : k0 = k' := congrArg Prod.fst h1
        exact absurd (hk0.trans h') h
      · exact List.mem_cons_of_mem _ h1
    · rw [show objSet ((k', v') :: q) k v = (k', v') :: objSet q k v by
        simp [objSet, h']]
      rcases List.mem_cons.mp hm with h1 | h1
      · exact List.mem_cons.mpr (Or.inl h1)
      · exact List.mem_cons_of_mem _ (ih h1)

theorem mem_keys_objSet (q : Query) (k v k0 : String)
    (h : k0 ∈ keys (objSet q k v)) : k0 ∈ keys q ∨ k0 = k := by
  induction q with
  | nil =>
    simp only [objSet, keys, List.mem_cons, List.not_mem_nil, or_false] at h
    exact Or.inr h
  | cons p q ih =>
    obtain ⟨k', v'⟩ := p
    by_cases h' : k' = k
    · rw [show objSet ((k', v') :: q) k v = (k, v) :: q by simp [objSet, h']] at h
      simp only [keys, List.mem_cons] at h
      rcases h with h | h
      · exact Or.inr h
      · exact Or.inl (List.mem_cons.mpr (Or.inr h))
    · rw [show objSet ((k', v') :: q) k v = (k', v') :: objSet q k v by
        simp [objSet, h']] at h
      simp only [keys, List.mem_cons] at h
      rcases h with h | h
      · exact Or.inl (List.mem_cons.mpr (Or.inl h))
      · rcases ih h with h1 | h1
        · exact Or.inl (List.mem_cons.mpr (Or.inr h1))
        · exact Or.inr h1

theorem nodup_keys_objSet (q : Query) (k v : String)
    (h : (keys q).Nodup) : (keys (objSet q k v)).Nodup := by
  induction q with
  | nil => simp [objSet, keys]
  | cons p q ih =>
    obtain ⟨k', v'⟩ := p
    simp only [keys, List.nodup_cons] at h
    by_cases h' : k' = k
    · rw [show objSet ((k', v') :: q) k v = (k, v) :: q by simp [objSet, h']]
      simp only [keys, List.nodup_cons]
      exact ⟨h'.symm ▸ h.1, h.2⟩
    · rw [show objSet ((k', v') :: q) k v = (k', v') :: objSet q k v by
        simp [objSet, h']]
      simp only [keys, List.nodup_cons]
      refine ⟨fun hmem => ?_, ih h.2⟩
      rcases mem_keys_objSet q k v k' hmem with h1 | h1
      · exact h.1 h1
      · exact h' h1

/-! Helper lemmas about the lifecycle step relation. -/

theorem step_of_unmounted (ex : String → String → String → ExchangeResponse)
    (su ru : String) (s : CompState) (e : SysEvent) (h : s.mounted = false) :
    step ex su ru s e = (s, []) := by
  simp [step, h]

theorem runTrace_of_unmounted (ex : String → String → String → ExchangeResponse)
    (su ru : String) (s : CompState) (evs : List SysEvent) (h : s.mounted = false) :
    runTrace ex su ru s evs = (s, []) := by
  induction evs with
  | nil => simp [runTrace]
  | cons e evs ih => simp [runTrace, step_of_unmounted ex su ru s e h, ih]

theorem mounted_after_unmount (ex : String → String → String → ExchangeResponse)
    (su ru : String) (s : CompState) :
    ((step ex su ru s .unmount).1).mounted = false := by
  cases h : s.mounted <;> simp [step, h]

/-- The synchronisation the `[codeVerifier]` effect maintains: while mounted,
the registered listener's closure holds exactly the current verifier. -/
def listenerSync (s : CompState) : Prop :=
  s.mounted = true → s.listenerVerifier = some s.codeVerifier

theorem listenerSync_step (ex : String → String → String → ExchangeResponse)
    (su ru : String) (s : CompState) (e : SysEvent) (h : listenerSync s) :
    listenerSync (step ex su ru s e).1 := by
  cases hm : s.mounted
  · rw [step_of_unmounted ex su ru s e hm]; exact h
  · cases e with
    | setVerifier v => intro _; simp [step, hm]
    | unmount => intro hcontra; simp [step, hm] at hcontra
    | timerFire =>
      by_cases ht : s.timerPending <;>
        simp only [step, hm, if_true, ht, if_false] <;>
        exact fun _ => h hm
    | urlOpen url =>
      simp only [step, hm, if_true]
      split
      · exact h
      · rename_i cv heq
        split
        · exact h
        · exact h
        · exact fun _ => h hm

theorem listenerSync_runTrace (ex : String → String → String → ExchangeResponse)
    (su ru : String) (s : CompState) (evs : List SysEvent) (h : listenerSync s) :
    listenerSync (runTrace ex su ru s evs).1 := by
  induction evs generalizing s with
  | nil => simpa [runTrace] using h
  | cons e evs ih =>
    simpa [runTrace] using ih _ (listenerSync_step ex su ru s e h)

theorem listenerSync_reachable (ex : String → String → String → ExchangeResponse)
    (su ru : String) (s : CompState) (h : ReachableFrom ex su ru s) :
    listenerSync s := by
  obtain ⟨le, evs, hrun⟩ := h
  have := listenerSync_runTrace ex su ru (mountState le) evs (by intro _; rfl)
  rwa [hrun] at this

/-- A truthy optional string is `some` of its default read. -/
theorem optTruthy_some (cv : Option String) (h : optTruthy cv = true) :
    cv = some (cv.getD "") := by
  cases cv <;> simp [optTruthy] at h ⊢

/-- Either `onURLChange` does not call the exchange collaborator, or it calls
it with the server URL and the verifier value the handler closed over. -/
theorem onURLChange_exchangeCall_cases (ex : String → String → String → ExchangeResponse)
    (su ru : String) (cv : Option String) (url : String) :
    (onURLChange ex su ru cv url).exchangeCall = none
    ∨ (optTruthy cv = true ∧ ∃ ct, (onURLChange ex su ru cv url).exchangeCall
        = some (su, ct, cv.getD "")) := by
  by_cases h1 : (strTruthy url && strStartsWith url ru) = true
  · by_cases h2 :
      (optTruthy (qlookup (parseUrlQuery url) "MMCHALLENGETOKEN") && optTruthy cv) = true
    · have h2' := h2
      rw [Bool.and_eq_true] at h2'
      refine Or.inr ⟨h2'.2, (qlookup (parseUrlQuery url) "MMCHALLENGETOKEN").getD "", ?_⟩
      simp [onURLChange, h1, h2]
    · exact Or.inl (by simp [onURLChange, h1, h2])
  · exact Or.inl (by simp [onURLChange, h1])

/-- When `onURLChange` calls the exchange collaborator, the verifier argument
is exactly the value the handler closed over. -/
theorem onURLChange_exchange_closure (ex : String → String → String → ExchangeResponse)
    (su ru : String) (cv : Option String) (url : String) (a ct v : String)
    (h : (onURLChange ex su ru cv url).exchangeCall = some (a, ct, v)) :
    a = su ∧ cv = some v := by
  rcases onURLChange_exchangeCall_cases ex su ru cv url with h0 | ⟨htr, ct', h0⟩
  · rw [h0] at h
    exact absurd h (by simp)
  · rw [h0] at h
    have h' : su = a ∧ ct' = ct ∧ cv.getD "" = v := by
      simpa [Prod.ext_iff] using h
    refine ⟨h'.1.symm, ?_⟩
    rw [optTruthy_some cv htr, h'.2.2]

/-! Claim theorems. -/

/-- Claim C2: every flow attempt generates its verifier by requesting exactly
100 random bytes from the secure random source, and the `code_challenge`
query value of the constructed login URL equals
`urlSafeBase64Encode(sha256(verifier))` for the verifier generated and stored
in that same call. -/
theorem init_verifier_length_and_challenge (env : InitEnv) (q : Query)
    (redirectUrl : String) :
    (init env q redirectUrl).storedVerifier = env.generateSecureRandom 100
    ∧ qlookup (init env q redirectUrl).urlQuery "code_challenge"
        = some (env.urlSafeBase64Encode (env.sha256 (env.generateSecureRandom 100))) := by
  refine ⟨rfl, ?_⟩
  simpa [init] using
    qlookup_objSet_self (objSet q "redirect_to" redirectUrl) "code_challenge"
      (env.urlSafeBase64Encode (env.sha256 (env.generateSecureRandom 100)))

/-- Claim C3 (counterexample): a loginUrl whose query already carries a
`redirect_to` parameter does not keep it — `init` overwrites its value, so
not every pre-existing query parameter is preserved. -/
theorem init_overwrites_preexisting_redirect_to :
    ("redirect_to", "evil") ∈ ([("redirect_to", "evil")] : Query)
    ∧ ("redirect_to", "evil") ∉
        (init sampleEnv [("redirect_to", "evil")] (redirectUrlOf "mmauth://")).urlQuery := by
  decide

/-- Claim C3 (amended): for any parsed loginUrl query, `init` preserves every
pre-existing parameter whose key is neither `redirect_to` nor
`code_challenge`, sets `redirect_to` to the custom scheme followed by
`callback` and `code_challenge` to the computed challenge (overwriting any
pre-existing entry of those two keys in place), and introduces no other keys
and no duplicate keys. -/
theorem init_query_merge (env : InitEnv) (q : Query) (scheme : String)
    (hnd : (keys q).Nodup) :
    (∀ k v, (k, v) ∈ q → k ≠ "redirect_to" → k ≠ "code_challenge" →
        (k, v) ∈ (init env q (redirectUrlOf scheme)).urlQuery)
    ∧ qlookup (init env q (redirectUrlOf scheme)).urlQuery "redirect_to"
        = some (scheme ++ "callback")
    ∧ qlookup (init env q (redirectUrlOf scheme)).urlQuery "code_challenge"
        = some (env.urlSafeBase64Encode (env.sha256 (env.generateSecureRandom 100)))
    ∧ (keys (init env q (redirectUrlOf scheme)).urlQuery).Nodup
    ∧ (∀ k, k ∈ keys (init env q (redirectUrlOf scheme)).urlQuery →
        k ∈ keys q ∨ k = "redirect_to" ∨ k = "code_challenge") := by
  have hq : (init env q (redirectUrlOf scheme)).urlQuery
      = objSet (objSet q "redirect_to" (redirectUrlOf scheme)) "code_challenge"
          (env.urlSafeBase64Encode (env.sha256 (env.generateSecureRandom 100))) := rfl
  refine ⟨?_, ?_, ?_, ?_, ?_⟩
  · intro k v hm h1 h2
    rw [hq]
    exact mem_objSet_of_ne _ _ _ _ _ (mem_objSet_of_ne _ _ _ _ _ hm h1) h2
  · rw [hq, qlookup_objSet_ne _ _ _ _ (by decide), qlookup_objSet_self]
    rfl
  · rw [hq, qlookup_objSet_self]
  · rw [hq]
    exact nodup_keys_objSet _ _ _ (nodup_keys_objSet _ _ _ hnd)
  · intro k hk
    rw [hq] at hk
    rcases mem_keys_objSet _ _ _ _ hk with h1 | h1
    · rcases mem_keys_objSet _ _ _ _ h1 with h2 | h2
      · exact Or.inl h2
      · exact Or.inr (Or.inl h2)
    · exact Or.inr (Or.inr h1)

/-- Claim C3 (witness for the amended theorem), on the spec's own scenario:
`client_id=abc` is preserved and `redirect_to` is the beta scheme plus
`callback`. -/
theorem init_query_merge_witness :
    ("client_id", "abc") ∈
        (init sampleEnv [("client_id", "abc")] (redirectUrlOf "mmauth-beta://")).urlQuery
    ∧ qlookup (init sampleEnv [("client_id", "abc")]
          (redirectUrlOf "mmauth-beta://")).urlQuery "redirect_to"
        = some ("mmauth-beta://" ++ "callback") :=
  ⟨(init_query_merge sampleEnv [("client_id", "abc")] "mmauth-beta://" (by decide)).1
      "client_id" "abc" (by decide) (by decide) (by decide),
   (init_query_merge sampleEnv [("client_id", "abc")] "mmauth-beta://" (by decide)).2.1⟩

/-- Claim C8 (code bug): the mount-time timer effect schedules the deferred
`init(false)` unconditionally — even when a login error is already present at
mount, the timer is pending and firing it invokes the flow. The effect body
(lines 152-159) never consults `loginError`. The delay is the fixed 1000 ms. -/
theorem timer_scheduled_regardless_of_login_error
    (loginError su ru : String) (ex : String → String → String → ExchangeResponse) :
    (mountState loginError).timerPending = true
    ∧ (step ex su ru (mountState loginError) SysEvent.timerFire).2 = [Obs.initRun]
    ∧ mountTimerDelayMs = 1000 := by
  refine ⟨rfl, ?_, rfl⟩
  simp [step, mountState]

/-- Claim C1: for a matched callback URL whose query carries only a challenge
token (no bearer or CSRF token), while a verifier is live, `onURLChange`
calls the exchange collaborator with the server URL, the challenge token and
the current verifier; a successful exchange result (a real token pair) leads
to `doSSOLogin` with the returned token and csrf; an exchange result without
a token leads to the login-failed error and no `doSSOLogin` call. -/
theorem challenge_only_token_exchange (ex : String → String → String → ExchangeResponse)
    (su ru url ct v : String)
    (hne : url ≠ "") (hpre : strStartsWith url ru = true)
    (hb : optTruthy (qlookup (parseUrlQuery url) "MMAUTHTOKEN") = false)
    (hc : optTruthy (qlookup (parseUrlQuery url) "MMCSRF") = false)
    (hct : qlookup (parseUrlQuery url) "MMCHALLENGETOKEN" = some ct) (hctne : ct ≠ "")
    (hv : v ≠ "") :
    (onURLChange ex su ru (some v) url).exchangeCall = some (su, ct, v)
    ∧ (∀ t c, ex su ct v = .success t c → t ≠ "" → c ≠ "" →
        (onURLChange ex su ru (some v) url).action = .login t c)
    ∧ (ex su ct v = .error →
        (onURLChange ex su ru (some v) url).action = .setError loginFailedMsg) := by
  have hu : strTruthy url = true := by simp [strTruthy, hne]
  have hcto : optTruthy (some ct) = true := by simp [optTruthy, strTruthy, hctne]
  have hvo : optTruthy (some v) = true := by simp [optTruthy, strTruthy, hv]
  refine ⟨?_, ?_, ?_⟩
  · simp [onURLChange, hu, hpre, hct, hcto, hvo]
  · intro t c hx htne hcne
    have hto : optTruthy (some t) = true := by simp [optTruthy, strTruthy, htne]
    have hco : optTruthy (some c) = true := by simp [optTruthy, strTruthy, hcne]
    simp [onURLChange, hu, hpre, hct, hcto, hvo, hx, hto, hco]
  · intro hx
    simp [onURLChange, hu, hpre, hct, hcto, hvo, hx, hb, hc]

/-- Claim C1 (witness): scenario from the spec — a challenge-token-only
callback with a live verifier, the exchange succeeding with tok2/csrf2. -/
theorem challenge_only_token_exchange_witness :
    (onURLChange exchOk "https://s.example" "mmauth://callback" (some "ver")
        callbackUrlChallenge).exchangeCall = some ("https://s.example", "chal1", "ver")
    ∧ (onURLChange exchOk "https://s.example" "mmauth://callback" (some "ver")
        callbackUrlChallenge).action = .login "tok2" "csrf2" :=
  ⟨(challenge_only_token_exchange exchOk "https://s.example" "mmauth://callback"
      callbackUrlChallenge "chal1" "ver" (by decide) (by decide) (by decide) (by decide)
      (by decide) (by decide) (by decide)).1,
   (challenge_only_token_exchange exchOk "https://s.example" "mmauth://callback"
      callbackUrlChallenge "chal1" "ver" (by decide) (by decide) (by decide) (by decide)
      (by decide) (by decide) (by decide)).2.1 "tok2" "csrf2" rfl (by decide) (by decide)⟩

/-- Claim C10: for a matched callback URL carrying a challenge token together
with direct bearer and CSRF tokens, while a verifier is live, the exchange is
still performed; a successful exchange overrides the direct pair, and an
exchange result without a token falls back to the direct pair, with
`doSSOLogin` still called. -/
theorem challenge_with_direct_tokens (ex : String → String → String → ExchangeResponse)
    (su ru url b c ct v : String)
    (hne : url ≠ "") (hpre : strStartsWith url ru = true)
    (hb : qlookup (parseUrlQuery url) "MMAUTHTOKEN" = some b) (hbne : b ≠ "")
    (hc : qlookup (parseUrlQuery url) "MMCSRF" = some c) (hcne : c ≠ "")
    (hct : qlookup (parseUrlQuery url) "MMCHALLENGETOKEN" = some ct) (hctne : ct ≠ "")
    (hv : v ≠ "") :
    (onURLChange ex su ru (some v) url).exchangeCall = some (su, ct, v)
    ∧ (∀ t c', ex su ct v = .success t c' → t ≠ "" → c' ≠ "" →
        (onURLChange ex su ru (some v) url).action = .login t c')
    ∧ (ex su ct v = .error →
        (onURLChange ex su ru (some v) url).action = .login b c) := by
  have hu : strTruthy url = true := by simp [strTruthy, hne]
  have hcto : optTruthy (some ct) = true := by simp [optTruthy, strTruthy, hctne]
  have hvo : optTruthy (some v) = true := by simp [optTruthy, strTruthy, hv]
  refine ⟨?_, ?_, ?_⟩
  · simp [onURLChange, hu, hpre, hct, hcto, hvo]
  · intro t c' hx htne hcne'
    have hto : optTruthy (some t) = true := by simp [optTruthy, strTruthy, htne]
    have hco : optTruthy (some c') = true := by simp [optTruthy, strTruthy, hcne']
    simp [onURLChange, hu, hpre, hct, hcto, hvo, hx, hto, hco]
  · intro hx
    have hbo : optTruthy (some b) = true := by simp [optTruthy, strTruthy, hbne]
    have hco : optTruthy (some c) = true := by simp [optTruthy, strTruthy, hcne]
    simp [onURLChange, hu, hpre, hct, hcto, hvo, hx, hb, hc, hbo, hco]

/-- Claim C10 (witness): a callback carrying all three tokens with a failing
exchange — the exchange is still called, and the direct pair logs in. -/
theorem challenge_with_direct_tokens_witness :
    (onURLChange exchErr "https://s.example" "mmauth://callback" (some "ver")
        callbackUrlAll).exchangeCall = some ("https://s.example", "chal1", "ver")
    ∧ (onURLChange exchErr "https://s.example" "mmauth://callback" (some "ver")
        callbackUrlAll).action = .login "tok1" "csrf1" :=
  ⟨(challenge_with_direct_tokens exchErr "https://s.example" "mmauth://callback"
      callbackUrlAll "tok1" "csrf1" "chal1" "ver" (by decide) (by decide) (by decide)
      (by decide) (by decide) (by decide) (by decide) (by decide) (by decide)).1,
   (challenge_with_direct_tokens exchErr "https://s.example" "mmauth://callback"
      callbackUrlAll "tok1" "csrf1" "chal1" "ver" (by decide) (by decide) (by decide)
      (by decide) (by decide) (by decide) (by decide) (by decide) (by decide)).2.2 rfl⟩

/-- Claim C5: a URL-open event whose URL does not start with the redirect URL
never invokes `doSSOLogin`, never calls the exchange, leaves the error state
and the rest of the component state unchanged, and produces no observation —
the listener registration stays as it was, still armed. -/
theorem mismatched_url_ignored (ex : String → String → String → ExchangeResponse)
    (su ru : String) (cv : Option String) (url : String) (s : CompState)
    (h : strStartsWith url ru = false) :
    onURLChange ex su ru cv url = { exchangeCall := none, action := .noop }
    ∧ step ex su ru s (.urlOpen url) = (s, []) := by
  have h1 : onURLChange ex su ru cv url = { exchangeCall := none, action := .noop } := by
    simp [onURLChange, h]
  refine ⟨h1, ?_⟩
  cases hm : s.mounted
  · exact step_of_unmounted ex su ru s _ hm
  · simp only [step, hm, if_true]
    cases hl : s.listenerVerifier with
    | none => rfl
    | some cv' =>
      have h1' : onURLChange ex su ru cv' url = { exchangeCall := none, action := .noop } := by
        simp [onURLChange, h]
      simp [hl, h1']

/-- Claim C5 (witness): the spec's scenario `other-scheme://foo` is silently
ignored. -/
theorem mismatched_url_ignored_witness :
    onURLChange exchErr "https://s.example" "mmauth://callback" none "other-scheme://foo"
      = { exchangeCall := none, action := .noop }
    ∧ step exchErr "https://s.example" "mmauth://callback" (mountState "")
        (.urlOpen "other-scheme://foo") = (mountState "", []) :=
  mismatched_url_ignored exchErr "https://s.example" "mmauth://callback" none
    "other-scheme://foo" (mountState "") (by decide)

/-- Claim C4 (counterexample): the completion callback is not invoked exactly
once per flow attempt — flow state is not discarded after completion. With no
new flow attempt in between, a second identical direct-token callback event
invokes `doSSOLogin` a second time. -/
theorem double_event_double_login :
    (runTrace exchErr "https://s.example" "mmauth://callback" (mountState "")
        [SysEvent.urlOpen callbackUrlDirect, SysEvent.urlOpen callbackUrlDirect]).2
      = [Obs.login "tok1" "csrf1", Obs.login "tok1" "csrf1"]
    ∧ ((runTrace exchErr "https://s.example" "mmauth://callback" (mountState "")
        [SysEvent.urlOpen callbackUrlDirect, SysEvent.urlOpen callbackUrlDirect]).2.countP
          (fun o => match o with | Obs.login _ _ => true | _ => false)) ≠ 1 := by
  decide

/-- Claim C4 (amended): a matched callback event carrying bearer and CSRF
tokens directly and no challenge token calls `doSSOLogin` with exactly that
pair, exactly once for that event, and does not trigger the exchange path;
the component state is left unchanged — in particular the listener stays
armed, so completion does not discard flow state and a later matching event
would invoke the callback again. -/
theorem direct_tokens_login_once_per_event
    (ex : String → String → String → ExchangeResponse)
    (su ru url b c : String) (s : CompState) (cv : Option String)
    (hm : s.mounted = true) (hl : s.listenerVerifier = some cv)
    (hne : url ≠ "") (hpre : strStartsWith url ru = true)
    (hb : qlookup (parseUrlQuery url) "MMAUTHTOKEN" = some b) (hbne : b ≠ "")
    (hc : qlookup (parseUrlQuery url) "MMCSRF" = some c) (hcne : c ≠ "")
    (hch : optTruthy (qlookup (parseUrlQuery url) "MMCHALLENGETOKEN") = false) :
    step ex su ru s (.urlOpen url) = (s, [Obs.login b c]) := by
  have hu : strTruthy url = true := by simp [strTruthy, hne]
  have hbo : optTruthy (some b) = true := by simp [optTruthy, strTruthy, hbne]
  have hco : optTruthy (some c) = true := by simp [optTruthy, strTruthy, hcne]
  have hhandler : onURLChange ex su ru cv url
      = { exchangeCall := none, action := .login b c } := by
    simp [onURLChange, hu, hpre, hb, hc, hch, hbo, hco]
  simp only [step, hm, if_true]
  simp [hl, hhandler]

/-- Claim C4 (witness for the amended theorem): the spec's direct-token
scenario produces exactly one `doSSOLogin("tok1", "csrf1")` call. -/
theorem direct_tokens_login_once_per_event_witness :
    step exchErr "https://s.example" "mmauth://callback" (mountState "")
      (.urlOpen callbackUrlDirect) = (mountState "", [Obs.login "tok1" "csrf1"]) :=
  direct_tokens_login_once_per_event exchErr "https://s.example" "mmauth://callback"
    callbackUrlDirect "tok1" "csrf1" (mountState "") none rfl rfl (by decide) (by decide)
    (by decide) (by decide) (by decide) (by decide) (by decide)

/-- Claim C6: after unmount both effect cleanups have run — the URL listener
is deregistered and the pending timer cleared — so from the post-unmount
state no event sequence whatsoever produces any observation: no URL event can
invoke `doSSOLogin` or the exchange, and the timer never runs the deferred
`init`; the state also never changes again. -/
theorem unmount_kills_listener_and_timer (ex : String → String → String → ExchangeResponse)
    (su ru : String) (s : CompState) (evs : List SysEvent) :
    runTrace ex su ru ((step ex su ru s .unmount).1) evs
      = ((step ex su ru s .unmount).1, []) :=
  runTrace_of_unmounted ex su ru _ evs (mounted_after_unmount ex su ru s)

/-- Claim C7: the single `codeVerifier` field is the only live verifier; in
every reachable mounted state the registered listener's closure holds exactly
the current verifier (the `[codeVerifier]` effect fully replaced the old
registration), a new flow attempt's `setCodeVerifier` replaces both the
stored verifier and the listener closure, and any exchange call made while
processing a callback event uses the verifier current at that moment. -/
theorem listener_uses_current_verifier (ex : String → String → String → ExchangeResponse)
    (su ru : String) (s : CompState) (hr : ReachableFrom ex su ru s)
    (hm : s.mounted = true) :
    s.listenerVerifier = some s.codeVerifier
    ∧ (∀ v, ((step ex su ru s (.setVerifier v)).1.codeVerifier = some v
        ∧ (step ex su ru s (.setVerifier v)).1.listenerVerifier = some (some v)))
    ∧ (∀ url ct v, Obs.exchanged ct v ∈ (step ex su ru s (.urlOpen url)).2 →
        s.codeVerifier = some v) := by
  have hsync : s.listenerVerifier = some s.codeVerifier :=
    listenerSync_reachable ex su ru s hr hm
  refine ⟨hsync, ?_, ?_⟩
  · intro v
    constructor <;> simp [step, hm]
  · intro url ct v hobs
    simp only [step, hm, if_true, hsync] at hobs
    rcases hec : (onURLChange ex su ru s.codeVerifier url).exchangeCall with _ | ⟨a, ct', v'⟩
    · cases ha : (onURLChange ex su ru s.codeVerifier url).action <;>
        simp [ha, hec] at hobs
    · have hclos := onURLChange_exchange_closure ex su ru s.codeVerifier url a ct' v' hec
      cases ha : (onURLChange ex su ru s.codeVerifier url).action <;>
        simp [ha, hec] at hobs <;>
        · obtain ⟨h1, h2⟩ := hobs
          rw [hclos.2, h2]

/-- Claim C7 (witness): the freshly mounted state is reachable, and its
listener closure holds exactly the current (absent) verifier. -/
theorem listener_uses_current_verifier_witness :
    (mountState "").listenerVerifier = some (mountState "").codeVerifier :=
  (listener_uses_current_verifier exchErr "https://s.example" "mmauth://callback"
    (mountState "") ⟨"", [], rfl⟩ rfl).1

/-- Claim C9: the browser-launch error classifier is total and yields one of
exactly two displayed messages (nothing is thrown): the distinct no-browser
message precisely when the platform reports an error whose message matches
the no-activity-to-handle-intent pattern (an Android platform report), and
the generic link-failed message in every other case. -/
theorem launch_error_classification (os : PlatformOS) (e : LaunchFailure) :
    (onErrorMessage os e = noBrowserMsg ∨ onErrorMessage os e = linkFailedMsg)
    ∧ ((∃ m, e = .withMessage m ∧ matchesNoActivity m = true ∧ os = .android) →
        onErrorMessage os e = noBrowserMsg)
    ∧ (¬(∃ m, e = .withMessage m ∧ matchesNoActivity m = true ∧ os = .android) →
        onErrorMessage os e = linkFailedMsg) := by
  refine ⟨?_, ?_, ?_⟩
  · cases e with
    | nullish => exact Or.inr rfl
    | noMessage => exact Or.inr rfl
    | withMessage m =>
      cases os with
      | ios => exact Or.inr rfl
      | android =>
        by_cases hm : matchesNoActivity m <;> simp [onErrorMessage, hm]
  · rintro ⟨m, rfl, hm, rfl⟩
    simp [onErrorMessage, hm]
  · intro hn
    cases e with
    | nullish => cases os <;> rfl
    | noMessage => cases os <;> rfl
    | withMessage m =>
      cases os with
      | ios => rfl
      | android =>
        have hm : matchesNoActivity m = false := by
          by_contra hcon
          exact hn ⟨m, rfl, by simpa using hcon, rfl⟩
        simp [onErrorMessage, hm]

/-- Claim C9 (witness): an Android no-activity report gets the no-browser
message; the same message on iOS gets the generic one. -/
theorem launch_error_classification_witness :
    onErrorMessage PlatformOS.android
        (LaunchFailure.withMessage "No Activity found to handle Intent") = noBrowserMsg
    ∧ onErrorMessage PlatformOS.ios
        (LaunchFailure.withMessage "No Activity found to handle Intent") = linkFailedMsg :=
  ⟨(launch_error_classification PlatformOS.android
      (LaunchFailure.withMessage "No Activity found to handle Intent")).2.1
      ⟨"No Activity found to handle Intent", rfl, by decide, rfl⟩,
   (launch_error_classification PlatformOS.ios
      (LaunchFailure.withMessage "No Activity found to handle Intent")).2.2
      (by rintro ⟨m, hm, -, hcon⟩; exact PlatformOS.noConfusion hcon)⟩

end SsoRedirect
